import Mathlib

/-!
# Verification of the asana-go pagination / lazy-expansion core

Shallow embedding of `workspaces.go` and `stories.go` from the
`andoma-go/asana-go` repository.  The HTTP transport, the `Options` /
`NextPage` model and the `Expandable` envelope live outside the two source
files, so those collaborators are modelled from the design document
(definitions marked "Modelled from the spec").  Everything translated from
the Go source keeps the source's structure: multi-value returns become
tuples, `nil` slices become `Option`, and the client's transport becomes an
explicit mock-transport state threaded through each operation.
-/

namespace Asana

/-- Error kinds of the library.  Modelled from the spec: the error model
(ConfigurationError, TransportError, LogicError) is declared in the design
document; the concrete Go error types are outside the two source files. -/
inductive Err where
  | configuration (msg : String)
  | transport (msg : String)
  | logic (msg : String)
deriving Repr, DecidableEq

/-- A Go slice value: `none` is the `nil` slice, `some l` a non-nil slice
holding the elements of `l`. -/
def GoSlice (α : Type) : Type := Option (List α)

instance instDecEqGoSlice (α : Type) [DecidableEq α] : DecidableEq (GoSlice α) :=
  inferInstanceAs (DecidableEq (Option (List α)))

/-- Go `append(s, xs...)`: appending zero elements returns the first slice
unchanged (so `nil` stays `nil`); otherwise the result is non-nil. -/
def goAppend {α : Type} (s : GoSlice α) (xs : GoSlice α) : GoSlice α :=
  match s, xs with
  | none, none => none
  | none, some [] => none
  | none, some ys => some ys
  | some l, none => some l
  | some l, some ys => some (l ++ ys)

/-- `NextPage` cursor.  Modelled from the spec: a response cursor carrying
the offset token for the next page; the walker treats a `nil` (`none`)
cursor as "no more pages". -/
structure NextPage where
  offset : String := ""
deriving Repr, DecidableEq

/-- Request options.  Modelled from the spec: limit (Go zero value `0`
means unset), offset continuation token (empty string means "start") and a
per-call field-selection list. -/
structure Options where
  limit : Nat := 0
  offset : String := ""
  fields : List String := []
deriving Repr, DecidableEq

/-- Modelled from the spec: the merge-with-precedence rule of the options
collaborator — the first non-zero limit in the option list wins. -/
def effectiveLimit : List Options → Nat
  | [] => 0
  | o :: rest => if o.limit ≠ 0 then o.limit else effectiveLimit rest

/-- Modelled from the spec: the merge-with-precedence rule of the options
collaborator — the first non-empty offset in the option list wins. -/
def effectiveOffset : List Options → String
  | [] => ""
  | o :: rest => if o.offset ≠ "" then o.offset else effectiveOffset rest

/-- The `Workspace` resource of `workspaces.go`: the `Expandable` envelope
(`ID`, the private `expanded` flag) together with the payload fields
(`Name` from `WithName`, `IsOrganization`, `EmailDomains`).  The client
back-reference of the envelope is threaded explicitly as the mock
transport state. -/
structure Workspace where
  id : Int := 0
  expanded : Bool := false
  name : String := ""
  isOrganization : Bool := false
  emailDomains : List String := []
deriving Repr, DecidableEq

/-- The payload decoded from a single-resource GET response. -/
structure WorkspaceData where
  name : String := ""
  isOrganization : Bool := false
  emailDomains : List String := []
deriving Repr, DecidableEq

/-- Modelled from the spec: a mock HTTP transport for single-resource GET
requests.  `respond` maps a request path to a decoded payload or a
transport error; `calls` records every path requested, in order. -/
structure MockGetTransport where
  respond : String → Except Err WorkspaceData
  calls : List String := []

/-- Modelled from the spec: `Client.get` for a single resource — issues the
GET, records the call and on success decodes the payload into the receiver
in place and sets `expanded := true`; on failure the receiver is unchanged
and the error is passed through unchanged. -/
def clientGetSingle (t : MockGetTransport) (path : String) (w : Workspace) :
    MockGetTransport × Workspace × Option Err :=
  let t' : MockGetTransport := { t with calls := t.calls ++ [path] }
  match t.respond path with
  | .ok d =>
      (t', { w with name := d.name, isOrganization := d.isOrganization,
                    emailDomains := d.emailDomains, expanded := true }, none)
  | .error e => (t', w, some e)

/-- `Client.Workspace` from `workspaces.go`: an unexpanded handle with the
given ID (the envelope's `init` sets ID and leaves `expanded` false). -/
def Client.workspace (id : Int) : Workspace := { id := id }

/-- `Workspace.Expand` from `workspaces.go`: if already expanded return
`nil` immediately, otherwise GET `/workspaces/<id>` into the receiver and
return the resulting error. -/
def Workspace.expand (t : MockGetTransport) (w : Workspace) :
    MockGetTransport × Workspace × Option Err :=
  if w.expanded then (t, w, none)
  else clientGetSingle t ("/workspaces/" ++ toString w.id) w

deriving instance DecidableEq for Except

/-- Modelled from the spec: a mock HTTP transport for paged list requests.
`pages` are the responses still to be served, one per call in order — each
either a decoded item list with an optional next-page cursor, or an error.
`calls` records the option list of every request made. -/
structure MockListTransport where
  pages : List (Except Err (List Workspace × Option NextPage))
  calls : List (List Options) := []
deriving Repr, DecidableEq

/-- Modelled from the spec: `Client.get` for a collection — records the
call, consumes the next mock response and either decodes the items into
the target (a non-nil slice) together with the response cursor, or leaves
the target `nil` and passes the error through unchanged.  A mock with no
responses left answers with a transport error. -/
def listGet (t : MockListTransport) (opts : List Options) :
    MockListTransport × GoSlice Workspace × Option NextPage × Option Err :=
  match t.pages with
  | [] => ({ t with calls := t.calls ++ [opts] }, none, none,
           some (.transport "no response"))
  | r :: rest =>
      let t' : MockListTransport := { pages := rest, calls := t.calls ++ [opts] }
      match r with
      | .ok (items, next) => (t', some items, next, none)
      | .error e => (t', none, none, some e)

/-- `Client.Workspaces` from `workspaces.go`: a single-page listing — one
GET of `/workspaces` returning the decoded result slice, the next-page
cursor and the error. -/
def Client.workspaces (t : MockListTransport) (opts : List Options) :
    MockListTransport × GoSlice Workspace × Option NextPage × Option Err :=
  listGet t opts

/-- The page-request option built by each iteration of `AllWorkspaces`:
`&Options{Limit: 100, Offset: nextPage.Offset}`. -/
def pageOptions (offset : String) : Options :=
  { limit := 100, offset := offset }

/-- The loop of `Client.AllWorkspaces` from `workspaces.go`, with explicit
fuel for the unbounded `for nextPage != nil` loop (the source trusts the
remote cursor to eventually become nil): `none` means the fuel ran out,
`some` is the loop's outcome.  Each iteration builds the page request,
prepends it to the caller options, invokes `Client.workspaces`, returns
`(nil, err)` on error and otherwise appends the items and continues with
the returned cursor. -/
def allWorkspacesLoop (opts : List Options) :
    Nat → MockListTransport → GoSlice Workspace → Option NextPage →
    Option (MockListTransport × GoSlice Workspace × Option Err)
  | 0, _, _, _ => none
  | _ + 1, t, acc, none => some (t, acc, none)
  | fuel + 1, t, acc, some np =>
      match Client.workspaces t (pageOptions np.offset :: opts) with
      | (t', _, _, some e) => some (t', none, some e)
      | (t', ws, np', none) => allWorkspacesLoop opts fuel t' (goAppend acc ws) np'

/-- `Client.AllWorkspaces` from `workspaces.go`: accumulator starts as the
non-nil empty slice `[]*Workspace{}` and the cursor as `&NextPage{}` (a
non-nil cursor with empty offset). -/
def Client.allWorkspaces (fuel : Nat) (t : MockListTransport)
    (opts : List Options) :
    Option (MockListTransport × GoSlice Workspace × Option Err) :=
  allWorkspacesLoop opts fuel t (some []) (some {})

/-- A chained mock response list: every response carries a cursor to the
next one and the last response (only) has a `nil` cursor. -/
def Chained : List (List Workspace × Option NextPage) → Bool
  | [] => false
  | [p] => p.2.isNone
  | p :: rest => p.2.isSome && Chained rest

/-- The offset sequence a walk starting at cursor `np` sends: the current
cursor's offset, then (as long as the response's cursor is non-nil) the
offsets for the rest of the responses. -/
def walkOffsets (np : NextPage) :
    List (List Workspace × Option NextPage) → List String
  | [] => []
  | (_, next) :: rest =>
      np.offset :: match next with
        | none => []
        | some np' => walkOffsets np' rest

/-- The offset of the cursor pending after a walk has consumed the given
responses (following the non-nil cursors), starting from cursor `np`. -/
def errOffset (np : NextPage) : List (List Workspace × Option NextPage) → String
  | [] => np.offset
  | (_, next) :: rest =>
      match next with
      | none => np.offset
      | some np' => errOffset np' rest

/-- A mock response prefix in which every response carries a non-nil
cursor (the walk never stops inside it). -/
def AllSome : List (List Workspace × Option NextPage) → Bool
  | [] => true
  | (_, next) :: rest => next.isSome && AllSome rest

/-- A JSON value as produced by Go `encoding/json`.  Numbers are modelled
as rationals: only whether a value is zero and whether it round-trips
matter for the story fields below. -/
inductive Json where
  | str (s : String)
  | num (q : Rat)
  | bool (b : Bool)
  | null
  | arr (elems : List Json)
  | obj (fields : List (String × Json))

/-- Go `float64`, modelled as a rational. -/
abbrev Float64 := Rat

/-- Modelled from the spec: the `Task` resource is defined outside the two
source files; the story operations only read its ID (for request paths)
and its Name (for logging), and the subtype union treats a referenced task
as an opaque payload. -/
structure Task where
  id : String := ""
  name : String := ""

/-- Modelled from the spec: the `User` resource is outside the two source
files; the subtype union is a pass-through container, so a referenced user
is modelled by its wire value. -/
structure User where
  payload : Json

/-- Modelled from the spec: the `Section` resource, kept as its wire
value (pass-through container). -/
structure Section where
  payload : Json

/-- Modelled from the spec: the `Attachment` resource, kept as its wire
value (pass-through container). -/
structure Attachment where
  payload : Json

/-- Modelled from the spec: the `Project` resource, kept as its wire
value (pass-through container). -/
structure Project where
  payload : Json

/-- Modelled from the spec: the `Tag` resource, kept as its wire value
(pass-through container). -/
structure Tag where
  payload : Json

/-- Modelled from the spec: the `EnumValue` resource, kept as its wire
value (pass-through container). -/
structure EnumValue where
  payload : Json

/-- Modelled from the spec: the custom `Date` type, kept as its wire
value. -/
structure Date where
  payload : Json

/-- Modelled from the spec: `time.Time`, kept as its wire value. -/
structure Time where
  payload : Json

/-- The recursive `*Story` reference inside `StorySubtypeFields` (present
for comment_liked / completion_liked); kept as its wire value so the
embedding stays non-recursive — in the round-trip claim this field is
absent. -/
structure StoryRef where
  payload : Json

/-- `Dates` from `stories.go`: the old/new due- and start-date payload of
date-change stories (all three fields `omitempty` pointers). -/
structure Dates where
  dueOn : Option Date := none
  dueAt : Option Time := none
  startOn : Option Date := none

/-- `StoryBase` from `stories.go`: the caller-editable text of a story or
comment (`text`, `html_text`, `is_pinned`, all `omitempty`). -/
structure StoryBase where
  text : String := ""
  htmlText : String := ""
  isPinned : Bool := false
deriving Repr, DecidableEq

/-- `StorySubtypeFields` from `stories.go`: the union of all subtype
payload fields, every field optional on the wire (`omitempty`). -/
structure StorySubtypeFields where
  isEdited : Bool := false
  newDates : Option Dates := none
  oldDates : Option Dates := none
  oldName : String := ""
  newName : String := ""
  oldResourceSubtype : String := ""
  newResourceSubtype : String := ""
  story : Option StoryRef := none
  attachment : Option Attachment := none
  assignee : Option User := none
  follower : Option User := none
  oldSection : Option Section := none
  newSection : Option Section := none
  task : Option Task := none
  project : Option Project := none
  tag : Option Tag := none
  oldTextValue : String := ""
  newTextValue : String := ""
  oldNumberValue : Float64 := 0
  newNumberValue : Float64 := 0
  oldEnumValue : Option EnumValue := none
  newEnumValue : Option EnumValue := none
  duplicateOf : Option Task := none
  duplicatedFrom : Option Task := none
  dependency : Option Task := none

/-- `Story` from `stories.go`: the activity record — ID, the embedded
`StoryBase`, the read-only metadata and the embedded subtype union. -/
structure Story where
  id : String := ""
  base : StoryBase := {}
  createdAt : Option Time := none
  liked : Bool := false
  likes : List User := []
  numLikes : Int := 0
  createdBy : Option User := none
  target : Option Task := none
  source : String := ""
  resourceSubtype : String := ""
  subtypeFields : StorySubtypeFields := {}

/-- Go `encoding/json` object encoding of a `Task` (per its field tags:
`gid` and `name`, both `omitempty`; the further fields of the resource are
outside the two source files). -/
def encodeTask (t : Task) : Json :=
  .obj ((if t.id ≠ "" then [("gid", Json.str t.id)] else [])
    ++ (if t.name ≠ "" then [("name", Json.str t.name)] else []))

/-- Go `encoding/json` object encoding of `Dates` (tags `due_on`,
`due_at`, `start_on`, all `omitempty` pointers: emitted iff non-nil). -/
def encodeDates (d : Dates) : Json :=
  .obj ((match d.dueOn with | some x => [("due_on", x.payload)] | none => [])
    ++ (match d.dueAt with | some x => [("due_at", x.payload)] | none => [])
    ++ (match d.startOn with | some x => [("start_on", x.payload)] | none => []))

/-- Go `encoding/json` encoding of `StorySubtypeFields` per the source's
field tags: every field `omitempty`, so a field is emitted iff it is
non-zero (strings non-empty, bools true, numbers non-zero, pointers
non-nil), in declaration order. -/
def encodeStorySubtypeFields (f : StorySubtypeFields) : List (String × Json) :=
  (if f.isEdited then [("is_edited", Json.bool f.isEdited)] else [])
  ++ (match f.newDates with | some d => [("new_dates", encodeDates d)] | none => [])
  ++ (match f.oldDates with | some d => [("old_dates", encodeDates d)] | none => [])
  ++ (if f.oldName ≠ "" then [("old_name", Json.str f.oldName)] else [])
  ++ (if f.newName ≠ "" then [("new_name", Json.str f.newName)] else [])
  ++ (if f.oldResourceSubtype ≠ ""
      then [("old_resource_subtype", Json.str f.oldResourceSubtype)] else [])
  ++ (if f.newResourceSubtype ≠ ""
      then [("new_resource_subtype", Json.str f.newResourceSubtype)] else [])
  ++ (match f.story with | some s => [("story", s.payload)] | none => [])
  ++ (match f.attachment with | some a => [("attachment", a.payload)] | none => [])
  ++ (match f.assignee with | some u => [("assignee", u.payload)] | none => [])
  ++ (match f.follower with | some u => [("follower", u.payload)] | none => [])
  ++ (match f.oldSection with | some s => [("old_section", s.payload)] | none => [])
  ++ (match f.newSection with | some s => [("new_section", s.payload)] | none => [])
  ++ (match f.task with | some t => [("task", encodeTask t)] | none => [])
  ++ (match f.project with | some p => [("project", p.payload)] | none => [])
  ++ (match f.tag with | some t => [("tag", t.payload)] | none => [])
  ++ (if f.oldTextValue ≠ "" then [("old_text_value", Json.str f.oldTextValue)] else [])
  ++ (if f.newTextValue ≠ "" then [("new_text_value", Json.str f.newTextValue)] else [])
  ++ (if f.oldNumberValue ≠ 0
      then [("old_number_value", Json.num f.oldNumberValue)] else [])
  ++ (if f.newNumberValue ≠ 0
      then [("new_number_value", Json.num f.newNumberValue)] else [])
  ++ (match f.oldEnumValue with | some v => [("old_enum_value", v.payload)] | none => [])
  ++ (match f.newEnumValue with | some v => [("new_enum_value", v.payload)] | none => [])
  ++ (match f.duplicateOf with | some t => [("duplicate_of", encodeTask t)] | none => [])
  ++ (match f.duplicatedFrom with
      | some t => [("duplicated_from", encodeTask t)] | none => [])
  ++ (match f.dependency with | some t => [("dependency", encodeTask t)] | none => [])

/-- Key lookup in a decoded JSON object (first binding wins, as in
`encoding/json`, whose encoder never emits a duplicate key). -/
def jsonLookup : List (String × Json) → String → Option Json
  | [], _ => none
  | (k', v) :: rest, k => if k' == k then some v else jsonLookup rest k

/-- Decoding of a string field: absent (or non-string) keys leave the Go
zero value `""`. -/
def decodeStr (kvs : List (String × Json)) (k : String) : String :=
  match jsonLookup kvs k with
  | some (.str s) => s
  | _ => ""

/-- Decoding of a bool field: absent keys leave the Go zero value. -/
def decodeBool (kvs : List (String × Json)) (k : String) : Bool :=
  match jsonLookup kvs k with
  | some (.bool b) => b
  | _ => false

/-- Decoding of a float64 field: absent keys leave the Go zero value. -/
def decodeNum (kvs : List (String × Json)) (k : String) : Float64 :=
  match jsonLookup kvs k with
  | some (.num q) => q
  | _ => 0

/-- Go `encoding/json` decoding of a `Task` reference. -/
def decodeTask : Json → Task
  | .obj kvs => { id := decodeStr kvs "gid", name := decodeStr kvs "name" }
  | _ => {}

/-- Go `encoding/json` decoding of `Dates`. -/
def decodeDates : Json → Dates
  | .obj kvs =>
      { dueOn := (jsonLookup kvs "due_on").map Date.mk
        dueAt := (jsonLookup kvs "due_at").map Time.mk
        startOn := (jsonLookup kvs "start_on").map Date.mk }
  | _ => {}

/-- Go `encoding/json` decoding of `StorySubtypeFields` from a decoded
object: each tagged key is read if present, and an absent key leaves the
field at its Go zero value (`nil` pointer, empty string, false, zero). -/
def decodeStorySubtypeFields (kvs : List (String × Json)) : StorySubtypeFields :=
  { isEdited := decodeBool kvs "is_edited"
    newDates := (jsonLookup kvs "new_dates").map decodeDates
    oldDates := (jsonLookup kvs "old_dates").map decodeDates
    oldName := decodeStr kvs "old_name"
    newName := decodeStr kvs "new_name"
    oldResourceSubtype := decodeStr kvs "old_resource_subtype"
    newResourceSubtype := decodeStr kvs "new_resource_subtype"
    story := (jsonLookup kvs "story").map StoryRef.mk
    attachment := (jsonLookup kvs "attachment").map Attachment.mk
    assignee := (jsonLookup kvs "assignee").map User.mk
    follower := (jsonLookup kvs "follower").map User.mk
    oldSection := (jsonLookup kvs "old_section").map Section.mk
    newSection := (jsonLookup kvs "new_section").map Section.mk
    task := (jsonLookup kvs "task").map decodeTask
    project := (jsonLookup kvs "project").map Project.mk
    tag := (jsonLookup kvs "tag").map Tag.mk
    oldTextValue := decodeStr kvs "old_text_value"
    newTextValue := decodeStr kvs "new_text_value"
    oldNumberValue := decodeNum kvs "old_number_value"
    newNumberValue := decodeNum kvs "new_number_value"
    oldEnumValue := (jsonLookup kvs "old_enum_value").map EnumValue.mk
    newEnumValue := (jsonLookup kvs "new_enum_value").map EnumValue.mk
    duplicateOf := (jsonLookup kvs "duplicate_of").map decodeTask
    duplicatedFrom := (jsonLookup kvs "duplicated_from").map decodeTask
    dependency := (jsonLookup kvs "dependency").map decodeTask }

/-- Modelled from the spec: one request to the mutating transport methods
— the path, and for `post`/`put` the serialized body. -/
inductive MutRequest where
  | post (path : String) (body : StoryBase)
  | put (path : String) (body : StoryBase)
  | del (path : String)
deriving Repr, DecidableEq

/-- Modelled from the spec: a mock transport for the mutating methods.
`respond` is the decoded `Story` of a successful response (its value is
unused for `del`), or the error; `calls` records every request in
order. -/
structure MockMutTransport where
  respond : MutRequest → Except Err Story
  calls : List MutRequest := []

/-- Modelled from the spec: `Client.post` — serializes the body, issues
the request, and decodes the JSON response into the target (which the
caller passes as a fresh zero `Story`); on error the target keeps its zero
value and the error is passed through unchanged. -/
def clientPost (c : MockMutTransport) (path : String) (body : StoryBase) :
    MockMutTransport × Story × Option Err :=
  let req := MutRequest.post path body
  let c' : MockMutTransport := { c with calls := c.calls ++ [req] }
  match c.respond req with
  | .ok s => (c', s, none)
  | .error e => (c', {}, some e)

/-- Modelled from the spec: `Client.put` — like `post` with the PUT
method. -/
def clientPut (c : MockMutTransport) (path : String) (body : StoryBase) :
    MockMutTransport × Story × Option Err :=
  let req := MutRequest.put path body
  let c' : MockMutTransport := { c with calls := c.calls ++ [req] }
  match c.respond req with
  | .ok s => (c', s, none)
  | .error e => (c', {}, some e)

/-- Modelled from the spec: `Client.delete` — issues the request and
returns only the error. -/
def clientDelete (c : MockMutTransport) (path : String) :
    MockMutTransport × Option Err :=
  let req := MutRequest.del path
  let c' : MockMutTransport := { c with calls := c.calls ++ [req] }
  match c.respond req with
  | .ok _ => (c', none)
  | .error e => (c', some e)

/-- `Task.CreateComment` from `stories.go`: POST the comment body to
`/tasks/<id>/stories` into a fresh `Story`.  The method only reads its
receiver, so the receiver's (unchanged) post-state is returned
explicitly alongside the fresh result. -/
def Task.createComment (c : MockMutTransport) (t : Task) (story : StoryBase) :
    MockMutTransport × Task × Story × Option Err :=
  match clientPost c ("/tasks/" ++ t.id ++ "/stories") story with
  | (c', result, err) => (c', t, result, err)

/-- `Story.UpdateStory` from `stories.go`: PUT the body to
`/stories/<id>` into a fresh `Story`.  The method only reads its receiver,
so the receiver's (unchanged) post-state is returned explicitly. -/
def Story.updateStory (c : MockMutTransport) (s : Story) (story : StoryBase) :
    MockMutTransport × Story × Story × Option Err :=
  match clientPut c ("/stories/" ++ s.id) story with
  | (c', result, err) => (c', s, result, err)

/-- `Story.Delete` from `stories.go`: DELETE `/stories/<id>`.  The method
only reads its receiver, so the receiver's (unchanged) post-state is
returned explicitly. -/
def Story.delete (c : MockMutTransport) (s : Story) :
    MockMutTransport × Story × Option Err :=
  match clientDelete c ("/stories/" ++ s.id) with
  | (c', err) => (c', s, err)

theorem walkOffsets_length (resp : List (List Workspace × Option NextPage)) :
    Chained resp = true → ∀ np, (walkOffsets np resp).length = resp.length := by
  induction resp with
  | nil => intro hc; simp [Chained] at hc
  | cons p rest ih =>
    obtain ⟨items, next⟩ := p
    intro hc np
    cases rest with
    | nil =>
      cases next with
      | none => simp [walkOffsets]
      | some _ => simp [Chained] at hc
    | cons r rs =>
      cases next with
      | none => simp [Chained] at hc
      | some np' =>
        have hc' : Chained (r :: rs) = true := by simpa [Chained] using hc
        have hw : walkOffsets np ((items, some np') :: r :: rs)
            = np.offset :: walkOffsets np' (r :: rs) := rfl
        rw [hw, List.length_cons, ih hc' np', List.length_cons]
        simp

/-- Running the walker's loop against a chained mock consumes every
response, records one call per response — each built by prepending the
page request for the pending cursor's offset to the caller options — and
returns the accumulator extended by all items, in page order. -/
theorem loop_run (resp : List (List Workspace × Option NextPage)) :
    Chained resp = true →
    ∀ (cs : List (List Options)) (acc : List Workspace) (np : NextPage)
      (opts : List Options) (fuel : Nat), resp.length + 1 ≤ fuel →
      allWorkspacesLoop opts fuel ⟨resp.map Except.ok, cs⟩ (some acc) (some np)
        = some (⟨[], cs ++ (walkOffsets np resp).map (fun o => pageOptions o :: opts)⟩,
                some (acc ++ (resp.map Prod.fst).flatten), none) := by
  induction resp with
  | nil => intro hc; simp [Chained] at hc
  | cons p rest ih =>
    obtain ⟨items, next⟩ := p
    intro hc cs acc np opts fuel hfuel
    simp only [List.length_cons] at hfuel
    obtain ⟨fuel, rfl⟩ : ∃ f, fuel = f + 1 := ⟨fuel - 1, by omega⟩
    cases rest with
    | nil =>
      cases next with
      | some _ => simp [Chained] at hc
      | none =>
        simp only [List.length_nil] at hfuel
        obtain ⟨fuel, rfl⟩ : ∃ f, fuel = f + 1 := ⟨fuel - 1, by omega⟩
        simp [allWorkspacesLoop, Client.workspaces, listGet, walkOffsets, goAppend]
    | cons r rs =>
      cases next with
      | none => simp [Chained] at hc
      | some np' =>
        have hc' : Chained (r :: rs) = true := by simpa [Chained] using hc
        simp only [List.map_cons, allWorkspacesLoop, Client.workspaces, listGet, goAppend]
        simp only [← List.map_cons]
        rw [ih hc' (cs ++ [pageOptions np.offset :: opts]) (acc ++ items) np' opts fuel
          (by simp only [List.length_cons] at hfuel ⊢; omega)]
        have hw : walkOffsets np ((items, some np') :: r :: rs)
            = np.offset :: walkOffsets np' (r :: rs) := rfl
        rw [hw]
        simp [List.append_assoc]

/-- If the walk hits an error response after a prefix of non-final pages,
the loop stops there and returns a nil slice together with that error. -/
theorem loop_error (good : List (List Workspace × Option NextPage)) :
    AllSome good = true →
    ∀ (cs : List (List Options)) (acc : List Workspace) (np : NextPage)
      (opts : List Options) (e : Err)
      (rest : List (Except Err (List Workspace × Option NextPage))) (fuel : Nat),
      good.length + 1 ≤ fuel →
      allWorkspacesLoop opts fuel ⟨good.map Except.ok ++ Except.error e :: rest, cs⟩
          (some acc) (some np)
        = some (⟨rest, cs ++ (walkOffsets np good).map (fun o => pageOptions o :: opts)
                        ++ [pageOptions (errOffset np good) :: opts]⟩, none, some e) := by
  induction good with
  | nil =>
    intro _ cs acc np opts e rest fuel hfuel
    simp only [List.length_nil] at hfuel
    obtain ⟨fuel, rfl⟩ : ∃ f, fuel = f + 1 := ⟨fuel - 1, by omega⟩
    simp [allWorkspacesLoop, Client.workspaces, listGet, walkOffsets, errOffset]
  | cons p good ih =>
    obtain ⟨items, next⟩ := p
    intro hg cs acc np opts e rest fuel hfuel
    simp only [List.length_cons] at hfuel
    obtain ⟨fuel, rfl⟩ : ∃ f, fuel = f + 1 := ⟨fuel - 1, by omega⟩
    cases next with
    | none => simp [AllSome] at hg
    | some np' =>
      have hg' : AllSome good = true := by simpa [AllSome] using hg
      simp only [List.cons_append, List.map_cons, allWorkspacesLoop, Client.workspaces,
        listGet, goAppend]
      rw [ih hg' (cs ++ [pageOptions np.offset :: opts]) (acc ++ items) np' opts e rest fuel
        (by omega)]
      have hw : walkOffsets np ((items, some np') :: good)
          = np.offset :: walkOffsets np' good := rfl
      have he : errOffset np ((items, some np') :: good) = errOffset np' good := rfl
      rw [hw, he]
      simp [List.append_assoc]

/-- The result slice is `nil` exactly in the error-returning branches of
the walker's loop: any completed run from a non-nil accumulator returns a
non-nil slice when the error is `nil` and a `nil` slice otherwise. -/
theorem loop_nil_iff (opts : List Options) :
    ∀ (fuel : Nat) (t : MockListTransport) (acc : List Workspace)
      (np : Option NextPage) (out : MockListTransport × GoSlice Workspace × Option Err),
      allWorkspacesLoop opts fuel t (some acc) np = some out →
      (out.2.2 = none → ∃ l, out.2.1 = some l)
      ∧ (out.2.2 ≠ none → out.2.1 = none) := by
  intro fuel
  induction fuel with
  | zero =>
    intro t acc np out h
    simp [allWorkspacesLoop] at h
  | succ fuel ih =>
    intro t acc np out h
    cases np with
    | none =>
      simp only [allWorkspacesLoop, Option.some_inj] at h
      subst h
      exact ⟨fun _ => ⟨acc, rfl⟩, fun hne => absurd rfl hne⟩
    | some np =>
      cases hp : t.pages with
      | nil =>
        simp only [allWorkspacesLoop, Client.workspaces, listGet, hp,
          Option.some_inj] at h
        subst h
        simp
      | cons r rest =>
        cases r with
        | error e =>
          simp only [allWorkspacesLoop, Client.workspaces, listGet, hp,
            Option.some_inj] at h
          subst h
          simp
        | ok pr =>
          obtain ⟨items, next⟩ := pr
          simp only [allWorkspacesLoop, Client.workspaces, listGet, hp, goAppend] at h
          exact ih _ (acc ++ items) next out h

/-- C1: for every mock transport that returns N pages of workspaces with a
final nil cursor (a chained response list), `AllWorkspaces` terminates
(fuel N+1 suffices for the N-iteration loop plus its final cursor check),
returns exactly the concatenation of all pages' items in page order, and
invokes the single-page listing operation `Workspaces` exactly N times. -/
theorem allWorkspaces_concat_pages (resp : List (List Workspace × Option NextPage))
    (opts : List Options) (hc : Chained resp = true) :
    ∃ t' : MockListTransport,
      Client.allWorkspaces (resp.length + 1) ⟨resp.map Except.ok, []⟩ opts
        = some (t', some (resp.map Prod.fst).flatten, none)
      ∧ t'.calls.length = resp.length := by
  refine ⟨⟨[], (walkOffsets {} resp).map (fun o => pageOptions o :: opts)⟩, ?_, ?_⟩
  · simpa [Client.allWorkspaces] using
      loop_run resp hc [] [] {} opts (resp.length + 1) (le_refl _)
  · simp [walkOffsets_length resp hc]

theorem allWorkspaces_concat_pages_witness :
    Chained [([{ id := 1 }], some ⟨"a"⟩), ([{ id := 2 }, { id := 3 }], none)] = true
    ∧ ∃ t' : MockListTransport,
        Client.allWorkspaces 3
          ⟨[Except.ok ([{ id := 1 }], some ⟨"a"⟩),
            Except.ok ([{ id := 2 }, { id := 3 }], none)], []⟩ []
          = some (t', some [{ id := 1 }, { id := 2 }, { id := 3 }], none)
        ∧ t'.calls.length = 2 :=
  ⟨by decide,
   allWorkspaces_concat_pages
     [([{ id := 1 }], some ⟨"a"⟩), ([{ id := 2 }, { id := 3 }], none)] [] (by decide)⟩

/-- C2: if any page request during the walk returns an error (here: after a
prefix of pages that all carry a non-nil cursor, the next response is an
error `e`), `AllWorkspaces` returns that error unchanged together with a
nil slice — the accumulated items are discarded and no partial results are
observable by the caller. -/
theorem allWorkspaces_error_discards (good : List (List Workspace × Option NextPage))
    (opts : List Options) (e : Err)
    (rest : List (Except Err (List Workspace × Option NextPage)))
    (hg : AllSome good = true) :
    ∃ t' : MockListTransport,
      Client.allWorkspaces (good.length + 1)
          ⟨good.map Except.ok ++ Except.error e :: rest, []⟩ opts
        = some (t', none, some e) :=
  ⟨_, by simpa [Client.allWorkspaces] using
      loop_error good hg [] [] {} opts e rest (good.length + 1) (le_refl _)⟩

theorem allWorkspaces_error_discards_witness :
    AllSome [([{ id := 1 }], some ⟨"a"⟩)] = true
    ∧ ∃ t' : MockListTransport,
        Client.allWorkspaces 2
          ⟨[Except.ok ([{ id := 1 }], some ⟨"a"⟩),
            Except.error (Err.transport "boom")], []⟩ []
          = some (t', none, some (Err.transport "boom")) :=
  ⟨by decide,
   allWorkspaces_error_discards [([{ id := 1 }], some ⟨"a"⟩)] []
     (Err.transport "boom") [] (by decide)⟩

/-- C3 counterexample: with caller options `[{Offset:"x"}]` and a single
page, the walker's first iteration builds the page request
`{Limit:100, Offset:""}` (cursor offset empty on the first iteration) and
prepends it, but under the documented first-non-empty-wins merge the
effective offset of the request is the caller's `"x"`, not the walker's
`""` — the walker's offset does not take precedence over the
caller-supplied value. -/
theorem walkerPrecedence_counterexample :
    Client.allWorkspaces 2 ⟨[Except.ok ([], none)], []⟩ [{ offset := "x" }]
      = some (⟨[], [[pageOptions "", { offset := "x" }]]⟩, some [], none)
    ∧ (pageOptions "").offset = ""
    ∧ effectiveOffset [pageOptions "", { offset := "x" }] = "x" := by
  exact ⟨by decide, rfl, by decide⟩

/-- C3 amended: on every iteration of a walk, the walker builds the page
request `{Limit:100, Offset:cursor offset}` (offset empty on the first
iteration) and prepends it to the caller options — the recorded calls of a
chained walk are exactly of this shape; under the first-non-empty-wins
merge the walker's limit always takes precedence (100 is never the unset
value), and the walker's offset takes precedence whenever the current
cursor's offset is non-empty, while an empty walker offset (in particular
on the first iteration) leaves the effective offset to the caller
options. -/
theorem walker_option_precedence (resp : List (List Workspace × Option NextPage))
    (opts : List Options) (hc : Chained resp = true) :
    (∃ res : GoSlice Workspace,
      Client.allWorkspaces (resp.length + 1) ⟨resp.map Except.ok, []⟩ opts
        = some (⟨[], (walkOffsets {} resp).map (fun o => pageOptions o :: opts)⟩, res, none)
      ∧ (walkOffsets {} resp).head? = some "")
    ∧ ∀ o : String,
        effectiveLimit (pageOptions o :: opts) = 100
        ∧ effectiveOffset (pageOptions o :: opts)
            = (if o = "" then effectiveOffset opts else o) := by
  constructor
  · refine ⟨some (resp.map Prod.fst).flatten, ?_, ?_⟩
    · simpa [Client.allWorkspaces] using
        loop_run resp hc [] [] {} opts (resp.length + 1) (le_refl _)
    · cases resp with
      | nil => simp [Chained] at hc
      | cons p rest => exact rfl
  · intro o
    refine ⟨by simp [effectiveLimit, pageOptions], ?_⟩
    by_cases ho : o = "" <;> simp [effectiveOffset, pageOptions, ho]

theorem walker_option_precedence_witness :
    Chained [([{ id := 1 }], some ⟨"a"⟩), ([], none)] = true
    ∧ ((∃ res : GoSlice Workspace,
        Client.allWorkspaces 3
          ⟨[Except.ok ([{ id := 1 }], some ⟨"a"⟩), Except.ok ([], none)], []⟩
          [{ offset := "x" }]
          = some (⟨[], [[pageOptions "", { offset := "x" }],
                        [pageOptions "a", { offset := "x" }]]⟩, res, none)
        ∧ (["", "a"] : List String).head? = some "")
      ∧ ∀ o : String,
          effectiveLimit (pageOptions o :: [{ offset := "x" }]) = 100
          ∧ effectiveOffset (pageOptions o :: [{ offset := "x" }])
              = (if o = "" then effectiveOffset [{ offset := "x" }] else o)) :=
  ⟨by decide,
   walker_option_precedence [([{ id := 1 }], some ⟨"a"⟩), ([], none)]
     [{ offset := "x" }] (by decide)⟩

/-- C5: a page that returns zero items but a non-nil cursor does not
terminate the walk — after consuming such a page the loop performs a
further iteration whose page request carries the returned cursor's offset
(second recorded call below), continuing the walk unchanged otherwise. -/
theorem allWorkspaces_emptyPage_continues (np np2 : NextPage)
    (items2 : List Workspace) (next2 : Option NextPage)
    (rest : List (Except Err (List Workspace × Option NextPage)))
    (cs : List (List Options)) (acc : List Workspace)
    (opts : List Options) (fuel : Nat) :
    allWorkspacesLoop opts (fuel + 2)
        ⟨Except.ok ([], some np2) :: Except.ok (items2, next2) :: rest, cs⟩
        (some acc) (some np)
      = allWorkspacesLoop opts fuel
          ⟨rest, cs ++ [pageOptions np.offset :: opts, pageOptions np2.offset :: opts]⟩
          (some (acc ++ items2)) next2 := by
  simp [allWorkspacesLoop, Client.workspaces, listGet, goAppend]

/-- C9: whenever the walker's loop completes, the returned slice is nil
exactly when an error is returned — on success the result is a non-nil
(possibly empty) slice, on error the result slice is nil. -/
theorem allWorkspaces_nil_iff_error (fuel : Nat) (t : MockListTransport)
    (opts : List Options) (out : MockListTransport × GoSlice Workspace × Option Err)
    (h : Client.allWorkspaces fuel t opts = some out) :
    out.2.1 = none ↔ out.2.2 ≠ none := by
  have hio := loop_nil_iff opts fuel t [] (some {}) out h
  constructor
  · intro hnil hcontra
    obtain ⟨l, hl⟩ := hio.1 hcontra
    rw [hnil] at hl
    cases hl
  · exact hio.2

theorem allWorkspaces_nil_iff_error_witness :
    Client.allWorkspaces 2 ⟨[Except.ok ([], none)], []⟩ []
      = some (⟨[], [[pageOptions ""]]⟩, some [], none)
    ∧ (((⟨[], [[pageOptions ""]]⟩, some [], none) :
          MockListTransport × GoSlice Workspace × Option Err).2.1 = none
        ↔ ((⟨[], [[pageOptions ""]]⟩, some [], none) :
          MockListTransport × GoSlice Workspace × Option Err).2.2 ≠ none) :=
  ⟨by decide, allWorkspaces_nil_iff_error 2 ⟨[Except.ok ([], none)], []⟩ [] _ (by decide)⟩

/-- C4: `Expand` is idempotent — for every not-yet-expanded workspace whose
GET succeeds, the first call performs exactly one network call, succeeds
and sets the expanded flag, and a second call on the result returns
immediately with success and no further network call. -/
theorem expand_idempotent (t : MockGetTransport) (w : Workspace) (d : WorkspaceData)
    (hnot : w.expanded = false)
    (hok : t.respond ("/workspaces/" ++ toString w.id) = Except.ok d) :
    (Workspace.expand t w).2.2 = none
    ∧ ((Workspace.expand t w).2.1).expanded = true
    ∧ ((Workspace.expand t w).1).calls = t.calls ++ ["/workspaces/" ++ toString w.id]
    ∧ Workspace.expand (Workspace.expand t w).1 (Workspace.expand t w).2.1
        = ((Workspace.expand t w).1, (Workspace.expand t w).2.1, none) := by
  simp [Workspace.expand, clientGetSingle, hnot, hok]

theorem expand_idempotent_witness :
    ((Client.workspace 5).expanded = false)
    ∧ ((⟨fun _ => Except.ok ⟨"Acme", true, ["a.com"]⟩, []⟩ : MockGetTransport).respond
        ("/workspaces/" ++ toString (Client.workspace 5).id)
        = Except.ok ⟨"Acme", true, ["a.com"]⟩)
    ∧ ((Workspace.expand ⟨fun _ => Except.ok ⟨"Acme", true, ["a.com"]⟩, []⟩
          (Client.workspace 5)).2.2 = none
    ∧ ((Workspace.expand ⟨fun _ => Except.ok ⟨"Acme", true, ["a.com"]⟩, []⟩
          (Client.workspace 5)).2.1).expanded = true
    ∧ ((Workspace.expand ⟨fun _ => Except.ok ⟨"Acme", true, ["a.com"]⟩, []⟩
          (Client.workspace 5)).1).calls
        = ([] : List String) ++ ["/workspaces/" ++ toString (Client.workspace 5).id]
    ∧ Workspace.expand
        (Workspace.expand ⟨fun _ => Except.ok ⟨"Acme", true, ["a.com"]⟩, []⟩
          (Client.workspace 5)).1
        (Workspace.expand ⟨fun _ => Except.ok ⟨"Acme", true, ["a.com"]⟩, []⟩
          (Client.workspace 5)).2.1
        = ((Workspace.expand ⟨fun _ => Except.ok ⟨"Acme", true, ["a.com"]⟩, []⟩
              (Client.workspace 5)).1,
           (Workspace.expand ⟨fun _ => Except.ok ⟨"Acme", true, ["a.com"]⟩, []⟩
              (Client.workspace 5)).2.1, none)) :=
  ⟨rfl, rfl,
   expand_idempotent ⟨fun _ => Except.ok ⟨"Acme", true, ["a.com"]⟩, []⟩
     (Client.workspace 5) ⟨"Acme", true, ["a.com"]⟩ rfl rfl⟩

/-- C6: for every not-yet-expanded workspace whose transport GET fails, the
result of `Expand` is: exactly one request recorded (no retry), the
receiver returned entirely unchanged (so the expanded flag is still false,
nothing partially marked), and the transport error surfaced unchanged. -/
theorem expand_transport_error (t : MockGetTransport) (w : Workspace) (e : Err)
    (hnot : w.expanded = false)
    (herr : t.respond ("/workspaces/" ++ toString w.id) = Except.error e) :
    Workspace.expand t w
      = ({ t with calls := t.calls ++ ["/workspaces/" ++ toString w.id] }, w, some e)
    ∧ ((Workspace.expand t w).2.1).expanded = false := by
  refine ⟨?_, ?_⟩ <;> simp [Workspace.expand, clientGetSingle, hnot, herr]

theorem expand_transport_error_witness :
    ((Client.workspace 7).expanded = false)
    ∧ ((⟨fun _ => Except.error (Err.transport "down"), []⟩ : MockGetTransport).respond
        ("/workspaces/" ++ toString (Client.workspace 7).id)
        = Except.error (Err.transport "down"))
    ∧ (Workspace.expand ⟨fun _ => Except.error (Err.transport "down"), []⟩
          (Client.workspace 7)
        = (⟨fun _ => Except.error (Err.transport "down"),
            ([] : List String) ++ ["/workspaces/" ++ toString (Client.workspace 7).id]⟩,
           Client.workspace 7, some (Err.transport "down"))
    ∧ ((Workspace.expand ⟨fun _ => Except.error (Err.transport "down"), []⟩
          (Client.workspace 7)).2.1).expanded = false) :=
  ⟨rfl, rfl,
   expand_transport_error ⟨fun _ => Except.error (Err.transport "down"), []⟩
     (Client.workspace 7) (Err.transport "down") rfl rfl⟩

/-- C7 counterexample: expanding a handle with no backing ID (the zero
value `0`) does issue a network request — the mock records the GET of
`/workspaces/0` — and with a transport that answers it the call even
succeeds; no LogicError is produced and no request is suppressed, contrary
to the claim. -/
theorem expand_missingId_counterexample :
    ((Workspace.expand ⟨fun _ => Except.ok ⟨"W", false, []⟩, []⟩ { id := 0 }).1).calls
        = ["/workspaces/0"]
    ∧ (Workspace.expand ⟨fun _ => Except.ok ⟨"W", false, []⟩, []⟩ { id := 0 }).2.2
        = none :=
  ⟨rfl, rfl⟩

/-- C7 amended: calling `Expand` on a handle with no backing ID does not
fail locally with a LogicError — the guard treats the zero ID like any
other and issues the GET of `/workspaces/0`, recording exactly one network
request and returning whatever the transport answers. -/
theorem expand_missingId_requests (t : MockGetTransport) :
    Workspace.expand t { id := 0 } = clientGetSingle t "/workspaces/0" { id := 0 }
    ∧ ((Workspace.expand t { id := 0 }).1).calls = t.calls ++ ["/workspaces/0"] := by
  refine ⟨rfl, ?_⟩
  have hpath : "/workspaces/" ++ toString (0 : Int) = "/workspaces/0" := rfl
  cases h : t.respond "/workspaces/0" <;>
    simp [Workspace.expand, clientGetSingle, hpath, h]

/-- C8: encoding a `StorySubtypeFields` value in which only `OldName` and
`NewName` are populated and decoding it back yields exactly the structure
with those two fields and every other subtype field (dates, sections,
tasks, projects, tags, custom-field diffs, likes, duplicates, dependency)
at its zero/absent value — the `omitempty` encoder drops every zero field
and the decoder leaves absent keys at their zero value. -/
theorem storySubtype_roundtrip (oldN newN : String) :
    decodeStorySubtypeFields
        (encodeStorySubtypeFields { oldName := oldN, newName := newN })
      = { oldName := oldN, newName := newN } := by
  have henc : encodeStorySubtypeFields { oldName := oldN, newName := newN }
      = (if oldN = "" then [] else [("old_name", Json.str oldN)])
        ++ (if newN = "" then [] else [("new_name", Json.str newN)]) := by
    by_cases ho : oldN = "" <;> by_cases hn : newN = "" <;>
      simp [encodeStorySubtypeFields, ho, hn]
  rw [henc]
  by_cases ho : oldN = "" <;> by_cases hn : newN = "" <;>
    simp [decodeStorySubtypeFields, decodeStr, decodeBool, decodeNum,
      jsonLookup, ho, hn]

/-- C10: the story mutation operations never modify in-memory receiver
state — `CreateComment` and `UpdateStory` return the receiver `Task`
resp. `Story` unchanged together with a freshly allocated `Story` that is
exactly the decoded response (the zero `Story` when the transport errors),
and `Delete` changes no field of the `Story` it is called on. -/
theorem storyMutations_preserve_receiver (c : MockMutTransport) (t : Task)
    (s : Story) (sb : StoryBase) :
    (Task.createComment c t sb).2.1 = t
    ∧ (Task.createComment c t sb).2.2.1
        = (match c.respond (MutRequest.post ("/tasks/" ++ t.id ++ "/stories") sb) with
           | .ok d => d
           | .error _ => {})
    ∧ (Story.updateStory c s sb).2.1 = s
    ∧ (Story.updateStory c s sb).2.2.1
        = (match c.respond (MutRequest.put ("/stories/" ++ s.id) sb) with
           | .ok d => d
           | .error _ => {})
    ∧ (Story.delete c s).2.1 = s := by
  refine ⟨?_, ?_, ?_, ?_, ?_⟩
  · cases h : c.respond (MutRequest.post ("/tasks/" ++ t.id ++ "/stories") sb) <;>
      simp [Task.createComment, clientPost, h]
  · cases h : c.respond (MutRequest.post ("/tasks/" ++ t.id ++ "/stories") sb) <;>
      simp [Task.createComment, clientPost, h]
  · cases h : c.respond (MutRequest.put ("/stories/" ++ s.id) sb) <;>
      simp [Story.updateStory, clientPut, h]
  · cases h : c.respond (MutRequest.put ("/stories/" ++ s.id) sb) <;>
      simp [Story.updateStory, clientPut, h]
  · cases h : c.respond (MutRequest.del ("/stories/" ++ s.id)) <;>
      simp [Story.delete, clientDelete, h]

end Asana
